import Mathlib

/-!
Verification of the AetherCore identity protocol
(`src/firmware/ralphie_esp32/identity.h`).

The C code is shallowly embedded: C strings (`const char*`) are modelled as
lists of byte values (`List Nat`), where the list holds the string's content
up to (not including) the NUL terminator.  The external BLAKE3 primitive is a
black box, so every operation is parameterized by an arbitrary digest function
`hash : List Nat → List Nat`; hypotheses state the digest contract (32 bytes,
each < 256) where a theorem needs it.
-/

namespace AetherCore

/-- Platform tag from `identity.h`: microcontroller or single-board computer. -/
inductive PlatformType where
  | MCU
  | SBC
deriving DecidableEq, Repr

/-- The byte values of the lookup table `"0123456789abcdef"` declared inside
`bytesToHex` (`'0'..'9'` are 48..57, `'a'..'f'` are 97..102). -/
def hex_chars : List Nat := [48, 49, 50, 51, 52, 53, 54, 55, 56, 57, 97, 98, 99, 100, 101, 102]

/-- Embedding of `bytesToHex(data, len, hex_out)`: byte `i` produces the
characters at positions `2i` and `2i+1`, namely `hex_chars[(data[i] >> 4) & 0x0F]`
and `hex_chars[data[i] & 0x0F]` (on `Nat`, `(b >> 4) & 0xF = b / 16 % 16` and
`b & 0xF = b % 16`).  The value is the written string content; the C code
additionally NUL-terminates the caller's buffer at position `2 * len`. -/
def bytesToHex (data : List Nat) : List Nat :=
  data.flatMap fun b => [hex_chars.getD (b / 16 % 16) 0, hex_chars.getD (b % 16) 0]

/-- Embedding of `generateGenesisHash`: build the preimage
`String(hardware_id) + String(public_key) + String(salt)` (left-associated
concatenation, as the C expression evaluates), feed it to the 32-byte hash
primitive, and hex-encode the digest. -/
def generateGenesisHash (hash : List Nat → List Nat)
    (hardware_id public_key salt : List Nat) : List Nat :=
  let preimage := (hardware_id ++ public_key) ++ salt
  let hash_bytes := hash preimage
  bytesToHex hash_bytes

/-- The `IdentityBlock` struct.  Each `char` array field is represented by the
C-string content it holds after creation. -/
structure IdentityBlock where
  hardware_id : List Nat
  public_key : List Nat
  genesis_hash : List Nat
  platform_type : PlatformType
deriving DecidableEq, Repr

/-- The first `n` buffer bytes written by `strncpy(dst, src, n)`: the source
string up to its NUL terminator, cut at `n` bytes, padded with NUL bytes up to
`n` when the source is shorter. -/
def strncpy (src : List Nat) (n : Nat) : List Nat :=
  let copied := (src.takeWhile (· != 0)).take n
  copied ++ List.replicate (n - copied.length) 0

/-- Reading a buffer as a C string: the bytes before the first NUL. -/
def cstr (buf : List Nat) : List Nat := buf.takeWhile (· != 0)

/-- Embedding of `createIdentityBlock`: `hardware_id` is copied with
`strncpy(·, ·, 17)` and the buffer's byte 17 set to NUL, `public_key` with
`strncpy(·, ·, 64)` and byte 64 set to NUL; `genesis_hash` is computed by
`generateGenesisHash` from the ORIGINAL (untruncated) argument strings, and
the platform tag is stamped. -/
def createIdentityBlock (hash : List Nat → List Nat)
    (hardware_id public_key salt : List Nat)
    (platform_type : PlatformType) : IdentityBlock :=
  { hardware_id := cstr (strncpy hardware_id 17 ++ [0])
    public_key := cstr (strncpy public_key 64 ++ [0])
    genesis_hash := generateGenesisHash hash hardware_id public_key salt
    platform_type := platform_type }

/-- Embedding of C `strcmp` on string contents: 0 when equal, the sign of the
first differing byte comparison otherwise (an empty string is below any
nonempty one, since its terminator compares below any content byte). -/
def strcmp : List Nat → List Nat → Int
  | [], [] => 0
  | [], _ :: _ => -1
  | _ :: _, [] => 1
  | a :: as, b :: bs => if a < b then -1 else if b < a then 1 else strcmp as bs

/-- Embedding of `verifyIdentityBlock`: recompute the genesis hash from the
block's stored `hardware_id` and `public_key` plus the supplied salt, and
compare with the stored `genesis_hash` via `strcmp == 0`. -/
def verifyIdentityBlock (hash : List Nat → List Nat)
    (block : IdentityBlock) (salt : List Nat) : Bool :=
  let expected_hash := generateGenesisHash hash block.hardware_id block.public_key salt
  strcmp block.genesis_hash expected_hash == 0

/-- State-passing form of `verifyIdentityBlock`, making the block's final
state explicit: the C function takes the block through a `const` pointer and
writes only to its stack-local `expected_hash` buffer, so the block component
of the result is the unchanged input block. -/
def verifyIdentityBlockSt (hash : List Nat → List Nat)
    (block : IdentityBlock) (salt : List Nat) : Bool × IdentityBlock :=
  let expected_hash := generateGenesisHash hash block.hardware_id block.public_key salt
  (strcmp block.genesis_hash expected_hash == 0, block)

/-- A concrete stand-in for the black-box digest function, used to instantiate
theorems at computable inputs: the input bytes reduced mod 256, zero-padded
and cut to exactly 32 bytes.  It satisfies the digest contract (32 bytes,
each < 256) and distinguishes the concrete preimages used below. -/
def cexHash (input : List Nat) : List Nat :=
  (input.map (· % 256) ++ List.replicate 32 0).take 32

/-! ### Helper lemmas -/

theorem takeWhile_append_of_forall {p : Nat → Bool} {A : List Nat} (B : List Nat)
    (h : ∀ a ∈ A, p a) : (A ++ B).takeWhile p = A ++ B.takeWhile p := by
  induction A with
  | nil => simp
  | cons a as ih =>
      have ha : p a = true := h a (by simp)
      have hrest : ∀ x ∈ as, p x = true := fun x hx => h x (by simp [hx])
      simp [List.takeWhile, ha, ih hrest]

theorem takeWhile_replicate_zero_append (m : Nat) :
    (List.replicate m 0 ++ [0]).takeWhile (· != 0) = [] := by
  cases m with
  | zero => rfl
  | succ k => rfl

theorem cstr_strncpy {src : List Nat} (n : Nat) (h0 : 0 ∉ src) :
    cstr (strncpy src n ++ [0]) = src.take n := by
  have hsrc : src.takeWhile (· != 0) = src :=
    List.takeWhile_eq_self_iff.mpr (by
      intro x hx
      simp only [bne_iff_ne, ne_eq]
      exact fun hx0 => h0 (hx0 ▸ hx))
  have htake : ∀ a ∈ src.take n, (a != 0) = true := by
    intro a ha
    have : a ∈ src := List.mem_of_mem_take ha
    simp only [bne_iff_ne, ne_eq]
    exact fun hx0 => h0 (hx0 ▸ this)
  unfold cstr strncpy
  rw [hsrc, List.append_assoc, takeWhile_append_of_forall _ htake,
    takeWhile_replicate_zero_append, List.append_nil]

theorem strcmp_self (a : List Nat) : strcmp a a = 0 := by
  induction a with
  | nil => rfl
  | cons x xs ih => simp [strcmp, ih]

theorem strcmp_eq_zero_iff (a b : List Nat) : strcmp a b = 0 ↔ a = b := by
  induction a generalizing b with
  | nil =>
      cases b with
      | nil => simp [strcmp]
      | cons y ys => simp [strcmp]
  | cons x xs ih =>
      cases b with
      | nil => simp [strcmp]
      | cons y ys =>
          by_cases hxy : x < y
          · simp [strcmp, hxy]
            omega
          · by_cases hyx : y < x
            · simp [strcmp, hxy, hyx]
              omega
            · have hxy' : x = y := by omega
              subst hxy'
              simp [strcmp, ih]

theorem bytesToHex_cons (b : Nat) (l : List Nat) :
    bytesToHex (b :: l) =
      hex_chars.getD (b / 16 % 16) 0 :: hex_chars.getD (b % 16) 0 :: bytesToHex l := rfl

theorem bytesToHex_length (data : List Nat) :
    (bytesToHex data).length = 2 * data.length := by
  induction data with
  | nil => rfl
  | cons b l ih => simp [bytesToHex_cons, ih]; omega

theorem hex_chars_getD_mem : ∀ j < 16, hex_chars.getD j 0 ∈ hex_chars := by decide

theorem hex_chars_getD_inj :
    ∀ x < 16, ∀ y < 16, hex_chars.getD x 0 = hex_chars.getD y 0 → x = y := by decide

theorem bytesToHex_mem {c : Nat} {data : List Nat} (h : c ∈ bytesToHex data) :
    c ∈ hex_chars := by
  induction data with
  | nil => simp [bytesToHex] at h
  | cons b l ih =>
      rw [bytesToHex_cons] at h
      simp only [List.mem_cons] at h
      rcases h with h | h | h
      · exact h ▸ hex_chars_getD_mem _ (Nat.mod_lt _ (by omega))
      · exact h ▸ hex_chars_getD_mem _ (Nat.mod_lt _ (by omega))
      · exact ih h

theorem bytesToHex_inj {a b : List Nat}
    (ha : ∀ x ∈ a, x < 256) (hb : ∀ x ∈ b, x < 256)
    (heq : bytesToHex a = bytesToHex b) : a = b := by
  induction a generalizing b with
  | nil =>
      cases b with
      | nil => rfl
      | cons y ys => simp [bytesToHex, bytesToHex_cons] at heq
  | cons x xs ih =>
      cases b with
      | nil => simp [bytesToHex, bytesToHex_cons] at heq
      | cons y ys =>
          rw [bytesToHex_cons, bytesToHex_cons] at heq
          obtain ⟨h1, h2, h3⟩ : hex_chars.getD (x / 16 % 16) 0 = hex_chars.getD (y / 16 % 16) 0 ∧
              hex_chars.getD (x % 16) 0 = hex_chars.getD (y % 16) 0 ∧
              bytesToHex xs = bytesToHex ys := by
            simpa using heq
          have hx : x < 256 := ha x (by simp)
          have hy : y < 256 := hb y (by simp)
          have hd1 : x / 16 % 16 = y / 16 % 16 :=
            hex_chars_getD_inj _ (Nat.mod_lt _ (by omega)) _ (Nat.mod_lt _ (by omega)) h1
          have hd2 : x % 16 = y % 16 :=
            hex_chars_getD_inj _ (Nat.mod_lt _ (by omega)) _ (Nat.mod_lt _ (by omega)) h2
          have hxdiv : x / 16 < 16 := by omega
          have hydiv : y / 16 < 16 := by omega
          rw [Nat.mod_eq_of_lt hxdiv, Nat.mod_eq_of_lt hydiv] at hd1
          have hxy : x = y := by omega
          have hxs : ∀ z ∈ xs, z < 256 := fun z hz => ha z (by simp [hz])
          have hys : ∀ z ∈ ys, z < 256 := fun z hz => hb z (by simp [hz])
          rw [hxy, ih hxs hys h3]

theorem bytesToHex_getD (data : List Nat) (i : Nat) (hi : i < data.length) :
    (bytesToHex data).getD (2 * i) 0 = hex_chars.getD (data.getD i 0 / 16 % 16) 0 ∧
    (bytesToHex data).getD (2 * i + 1) 0 = hex_chars.getD (data.getD i 0 % 16) 0 := by
  induction data generalizing i with
  | nil => simp at hi
  | cons b l ih =>
      cases i with
      | zero => simp [bytesToHex_cons]
      | succ j =>
          have hj : j < l.length := by simpa using hi
          have e1 : 2 * (j + 1) = 2 * j + 1 + 1 := by omega
          rw [bytesToHex_cons, e1]
          simp only [List.getD_cons_succ]
          exact ih j hj

/-! ### Claims -/

/-- Claim C1: for every triple of strings, `generateGenesisHash` returns the
hex encoding (via the `bytesToHex` lookup-table codec) of the external hash
applied to the byte-level concatenation of the three strings in the fixed
order hardware_id, public_key, salt. -/
theorem C1_generateGenesisHash_spec (hash : List Nat → List Nat)
    (hardware_id public_key salt : List Nat) :
    generateGenesisHash hash hardware_id public_key salt =
      bytesToHex (hash (hardware_id ++ (public_key ++ salt))) := by
  show bytesToHex (hash ((hardware_id ++ public_key) ++ salt)) = _
  rw [List.append_assoc]

/-- Claim C2: verification soundness — for inputs in canonical C-string form
(no NUL bytes) with hardware_id at most 17 characters and public_key at most
64 characters, verifying the record produced by `createIdentityBlock` with
the same salt returns true. -/
theorem C2_verification_soundness (hash : List Nat → List Nat)
    (h p s : List Nat) (t : PlatformType)
    (hh0 : 0 ∉ h) (hp0 : 0 ∉ p)
    (hhlen : h.length ≤ 17) (hplen : p.length ≤ 64) :
    verifyIdentityBlock hash (createIdentityBlock hash h p s t) s = true := by
  have hhid : cstr (strncpy h 17 ++ [0]) = h := by
    rw [cstr_strncpy _ hh0, List.take_of_length_le hhlen]
  have hpk : cstr (strncpy p 64 ++ [0]) = p := by
    rw [cstr_strncpy _ hp0, List.take_of_length_le hplen]
  simp [verifyIdentityBlock, createIdentityBlock, hhid, hpk, strcmp_self]

theorem C2_witness :
    verifyIdentityBlock cexHash
      (createIdentityBlock cexHash [65, 66] [97] [115] PlatformType.MCU) [115] = true :=
  C2_verification_soundness cexHash [65, 66] [97] [115] PlatformType.MCU
    (by decide) (by decide) (by decide) (by decide)

/-- Claim C3 (counterexample): with an 18-character hardware_id, the stored
genesis_hash is computed from the untruncated input, so it differs from the
hash of the record's stored (truncated) fields. -/
theorem C3_counterexample :
    (createIdentityBlock cexHash (List.replicate 18 97) [] [] PlatformType.MCU).genesis_hash ≠
      bytesToHex (cexHash
        ((createIdentityBlock cexHash (List.replicate 18 97) [] [] PlatformType.MCU).hardware_id ++
          ((createIdentityBlock cexHash (List.replicate 18 97) [] [] PlatformType.MCU).public_key ++
            ([] : List Nat)))) := by decide

/-- Claim C3 (amended): the stored genesis_hash equals the hex-encoded hash
of the concatenation of the record's stored hardware_id, stored public_key
and the salt, provided the supplied inputs are NUL-free and fit the fixed
field widths (hardware_id at most 17, public_key at most 64 characters);
for oversized inputs the hash instead binds the supplied untruncated strings,
not the stored fields. -/
theorem C3_record_invariant (hash : List Nat → List Nat)
    (h p s : List Nat) (t : PlatformType)
    (hh0 : 0 ∉ h) (hp0 : 0 ∉ p)
    (hhlen : h.length ≤ 17) (hplen : p.length ≤ 64) :
    (createIdentityBlock hash h p s t).genesis_hash =
      bytesToHex (hash ((createIdentityBlock hash h p s t).hardware_id ++
        ((createIdentityBlock hash h p s t).public_key ++ s))) := by
  have hhid : cstr (strncpy h 17 ++ [0]) = h := by
    rw [cstr_strncpy _ hh0, List.take_of_length_le hhlen]
  have hpk : cstr (strncpy p 64 ++ [0]) = p := by
    rw [cstr_strncpy _ hp0, List.take_of_length_le hplen]
  simp [createIdentityBlock, generateGenesisHash, hhid, hpk, List.append_assoc]

theorem C3_witness :
    (createIdentityBlock cexHash [65] [98, 99] [100] PlatformType.SBC).genesis_hash =
      bytesToHex (cexHash
        ((createIdentityBlock cexHash [65] [98, 99] [100] PlatformType.SBC).hardware_id ++
          ((createIdentityBlock cexHash [65] [98, 99] [100] PlatformType.SBC).public_key ++
            [100]))) :=
  C3_record_invariant cexHash [65] [98, 99] [100] PlatformType.SBC
    (by decide) (by decide) (by decide) (by decide)

/-- Claim C4: `createIdentityBlock` silently truncates oversized NUL-free
inputs — the stored hardware_id is the first at-most-17 characters of the
supplied hardware_id and the stored public_key the first at-most-64
characters of the supplied public_key; the record is produced totally, with
no error reported. -/
theorem C4_truncation (hash : List Nat → List Nat)
    (h p s : List Nat) (t : PlatformType)
    (hh0 : 0 ∉ h) (hp0 : 0 ∉ p) :
    (createIdentityBlock hash h p s t).hardware_id = h.take 17 ∧
    (createIdentityBlock hash h p s t).public_key = p.take 64 :=
  ⟨cstr_strncpy 17 hh0, cstr_strncpy 64 hp0⟩

theorem C4_witness :
    (createIdentityBlock cexHash (List.replicate 20 66) (List.replicate 70 97) []
        PlatformType.SBC).hardware_id = (List.replicate 20 66).take 17 ∧
    (createIdentityBlock cexHash (List.replicate 20 66) (List.replicate 70 97) []
        PlatformType.SBC).public_key = (List.replicate 70 97).take 64 :=
  C4_truncation cexHash (List.replicate 20 66) (List.replicate 70 97) [] PlatformType.SBC
    (by decide) (by decide)

/-- Claim C5: `verifyIdentityBlock` returns true exactly when the recomputed
hash string (`generateGenesisHash` of the record's stored hardware_id and
public_key with the supplied salt) is character-for-character equal to the
stored genesis_hash; any mismatch yields the boolean false — the function is
total and never faults. -/
theorem C5_verify_exact_match (hash : List Nat → List Nat)
    (block : IdentityBlock) (salt : List Nat) :
    (verifyIdentityBlock hash block salt = true ↔
      block.genesis_hash =
        generateGenesisHash hash block.hardware_id block.public_key salt) ∧
    (verifyIdentityBlock hash block salt = false ↔
      block.genesis_hash ≠
        generateGenesisHash hash block.hardware_id block.public_key salt) := by
  constructor
  · simp [verifyIdentityBlock, strcmp_eq_zero_iff]
  · simp [verifyIdentityBlock, strcmp_eq_zero_iff]

/-- Claim C6: `bytesToHex` maps a byte list of length len to a string of
exactly 2 × len characters; byte i yields characters 2i and 2i+1 through the
lookup table "0123456789abcdef" (high nibble first), and every output
character belongs to that table (lowercase hex digits only). -/
theorem C6_bytesToHex_format (data : List Nat) :
    (bytesToHex data).length = 2 * data.length ∧
    (∀ i, i < data.length →
      (bytesToHex data).getD (2 * i) 0 = hex_chars.getD (data.getD i 0 / 16 % 16) 0 ∧
      (bytesToHex data).getD (2 * i + 1) 0 = hex_chars.getD (data.getD i 0 % 16) 0) ∧
    (∀ c ∈ bytesToHex data, c ∈ hex_chars) :=
  ⟨bytesToHex_length data, fun i hi => bytesToHex_getD data i hi,
    fun _ hc => bytesToHex_mem hc⟩

theorem C6_witness :
    (bytesToHex [0, 255, 171]).length = 2 * 3 ∧
    (bytesToHex [0, 255, 171]).getD (2 * 2) 0 = hex_chars.getD (171 / 16 % 16) 0 ∧
    (bytesToHex [0, 255, 171]).getD (2 * 2 + 1) 0 = hex_chars.getD (171 % 16) 0 ∧
    (97 : Nat) ∈ hex_chars :=
  ⟨(C6_bytesToHex_format [0, 255, 171]).1,
    ((C6_bytesToHex_format [0, 255, 171]).2.1 2 (by decide)).1,
    ((C6_bytesToHex_format [0, 255, 171]).2.1 2 (by decide)).2,
    (C6_bytesToHex_format [0, 255, 171]).2.2 97 (by decide)⟩

/-- Claim C7 (counterexample): swapping the field order does NOT change the
genesis hash for every triple — with hardware_id = "ab" and public_key =
"abab" (distinct fields) the two concatenations coincide byte-for-byte, so
the hash is unchanged. -/
theorem C7_counterexample :
    ([97, 98] : List Nat) ≠ [97, 98, 97, 98] ∧
    generateGenesisHash cexHash [97, 98] [97, 98, 97, 98] [] =
      generateGenesisHash cexHash [97, 98, 97, 98] [97, 98] [] := by decide

/-- Claim C7 (amended): swapping the field order changes the genesis hash
whenever the swapped concatenation is a different byte sequence and the
black-box hash primitive assigns the two preimages distinct valid digests
(bytes < 256) — hex encoding is injective on valid digests, so distinct
digests always yield distinct hash strings.  When the fields commute as
strings the two preimages coincide and the hash is necessarily unchanged. -/
theorem C7_order_sensitivity (hash : List Nat → List Nat) (h p s : List Nat)
    (hne : hash ((h ++ p) ++ s) ≠ hash ((p ++ h) ++ s))
    (hb1 : ∀ b ∈ hash ((h ++ p) ++ s), b < 256)
    (hb2 : ∀ b ∈ hash ((p ++ h) ++ s), b < 256) :
    generateGenesisHash hash h p s ≠ generateGenesisHash hash p h s := by
  intro heq
  exact hne (bytesToHex_inj hb1 hb2 heq)

theorem C7_witness :
    generateGenesisHash cexHash [97] [98] [] ≠ generateGenesisHash cexHash [98] [97] [] :=
  C7_order_sensitivity cexHash [97] [98] [] (by decide) (by decide) (by decide)

/-- Claim C8: determinism — for equal input triples, `generateGenesisHash`
returns the identical string, and under the 32-byte digest contract that
string is exactly 64 characters long; the function is pure, with no
randomness or time dependence. -/
theorem C8_determinism (hash : List Nat → List Nat) (h p s h' p' s' : List Nat)
    (hh : h = h') (hp : p = p') (hs : s = s')
    (hlen : (hash ((h ++ p) ++ s)).length = 32) :
    generateGenesisHash hash h p s = generateGenesisHash hash h' p' s' ∧
    (generateGenesisHash hash h p s).length = 64 := by
  subst hh
  subst hp
  subst hs
  refine ⟨rfl, ?_⟩
  show (bytesToHex (hash ((h ++ p) ++ s))).length = 64
  rw [bytesToHex_length, hlen]

theorem C8_witness :
    generateGenesisHash cexHash [65] [98] [99] = generateGenesisHash cexHash [65] [98] [99] ∧
    (generateGenesisHash cexHash [65] [98] [99]).length = 64 :=
  C8_determinism cexHash [65] [98] [99] [65] [98] [99] rfl rfl rfl (by decide)

/-- Claim C9: `verifyIdentityBlock` leaves the record unchanged — in the
state-passing embedding (the C function receives the block through a const
pointer and writes only a stack-local buffer), the block component of the
result has all four fields identical to the input, and the boolean component
agrees with `verifyIdentityBlock`, whether verification succeeds or fails. -/
theorem C9_verify_frame (hash : List Nat → List Nat)
    (block : IdentityBlock) (salt : List Nat) :
    (verifyIdentityBlockSt hash block salt).2.hardware_id = block.hardware_id ∧
    (verifyIdentityBlockSt hash block salt).2.public_key = block.public_key ∧
    (verifyIdentityBlockSt hash block salt).2.genesis_hash = block.genesis_hash ∧
    (verifyIdentityBlockSt hash block salt).2.platform_type = block.platform_type ∧
    (verifyIdentityBlockSt hash block salt).1 = verifyIdentityBlock hash block salt :=
  ⟨rfl, rfl, rfl, rfl, rfl⟩

/-- Claim C10: the preimage construction is not injective — for every hash
primitive there are two distinct input triples (moving a character across a
field boundary) whose concatenated preimages are byte-identical, so
`generateGenesisHash` returns the same hash for both. -/
theorem C10_preimage_collision (hash : List Nat → List Nat) :
    ∃ h p s h' p' s' : List Nat,
      (h, p, s) ≠ (h', p', s') ∧
      (h ++ p) ++ s = (h' ++ p') ++ s' ∧
      generateGenesisHash hash h p s = generateGenesisHash hash h' p' s' := by
  refine ⟨[97, 98], [99], [], [97], [98, 99], [], by decide, by decide, ?_⟩
  show bytesToHex (hash (([97, 98] ++ [99]) ++ [])) =
    bytesToHex (hash (([97] ++ [98, 99]) ++ []))
  have hpre : (([97, 98] ++ [99]) ++ ([] : List Nat)) = ([97] ++ [98, 99]) ++ [] := by decide
  rw [hpre]

end AetherCore
